import Mathlib

/-!
Verification of the mesh-decode bridge in
`src/abetterworld/src/decode/native.cc`.

The file is a thin marshalling shim over an external geometry decoder
(draco).  The decoder itself is opaque to the shim: the shim only consumes
the decoded mesh object through `num_points`, `num_faces`, `num_attributes`,
`attribute(i)`, `GetNamedAttribute(type)`, `face(i)` and per-attribute
`num_components`, `mapped_index(point)` and `GetValue(value_index, out_buf)`.
We therefore embed the decoder call by its result: `none` models
`!result.ok()`, `some mesh` models a successfully decoded mesh exposing
exactly that interface.

All 32-bit floats in the shim are only ever moved by bitwise copy
(`GetValue`, `memcpy`, struct assignment) or set to one of the two literals
`0.0f` and `1.0f`; no floating-point arithmetic occurs.  We therefore
represent a float by its IEEE-754 single-precision bit pattern, a `Nat`
below `2^32`, which keeps every value decidable.
-/

namespace ABetterWorld

/-- A 32-bit float represented by its IEEE-754 bit pattern. -/
abbrev F32 := Nat

/-- Bit pattern of the literal `0.0f`. -/
def f32_zero : F32 := 0x00000000

/-- Bit pattern of the literal `1.0f`. -/
def f32_one : F32 := 0x3F800000

/-- Semantic roles of mesh attributes (draco `GeometryAttribute::Type`);
the shim uses `POSITION`, `NORMAL`, `COLOR` and `TEX_COORD`. -/
inductive GeometryAttributeType where
  | POSITION
  | NORMAL
  | COLOR
  | TEX_COORD
  | GENERIC
deriving DecidableEq, Repr

/-- A per-point attribute of the decoded source mesh (draco
`PointAttribute`): a semantic role, a component count, the point-index to
value-index map (`mapped_index`) and the stored component values
(`value avi j` is component `j` of the attribute value at value index
`avi`). -/
structure PointAttribute where
  attribute_type : GeometryAttributeType
  num_components : Nat
  mapped_index : Nat → Nat
  value : Nat → Nat → F32

/-- Helper for `PointAttribute.GetValue`: writes components `j, j+1, ...`
of the attribute value over the successive entries of the destination
buffer, stopping at `num_components` (entries past it keep their previous
contents). -/
def PointAttribute.GetValueAux (attr : PointAttribute) (avi : Nat) :
    Nat → List F32 → List F32
  | _, [] => []
  | j, d :: rest =>
    (if j < attr.num_components then attr.value avi j else d) ::
      attr.GetValueAux avi (j + 1) rest

/-- Model of draco `PointAttribute::GetValue(value_index, out)`: copies the
`num_components` components of the value at `value_index` into the start of
the destination buffer, leaving the rest of the buffer untouched.  (In the
C++ the destination is a raw array; writing more components than the
destination holds would overflow it, so this model is faithful whenever
`num_components` does not exceed the destination size.) -/
def PointAttribute.GetValue (attr : PointAttribute) (avi : Nat)
    (dest : List F32) : List F32 :=
  attr.GetValueAux avi 0 dest

/-- A triangle of the decoded source mesh (draco `Mesh::Face`): three global
point indices in winding order. -/
structure Face where
  c0 : Nat
  c1 : Nat
  c2 : Nat
deriving DecidableEq, Repr

/-- Corner access `face[j]` for `j = 0, 1, 2`. -/
def Face.corner (f : Face) : Nat → Nat
  | 0 => f.c0
  | 1 => f.c1
  | _ => f.c2

/-- The decoded source mesh as the shim consumes it: a point count, the
attribute list (in attribute-index order) and the face list (in face-index
order). -/
structure Mesh where
  num_points : Nat
  attributes : List PointAttribute
  faces : List Face

/-- draco `Mesh::num_faces()`. -/
def Mesh.num_faces (m : Mesh) : Nat := m.faces.length

/-- draco `PointCloud::num_attributes()`. -/
def Mesh.num_attributes (m : Mesh) : Nat := m.attributes.length

/-- draco `PointCloud::GetNamedAttribute(type)`: the first attribute in
attribute-index order whose type matches, if any. -/
def Mesh.GetNamedAttribute (m : Mesh) (t : GeometryAttributeType) :
    Option PointAttribute :=
  m.attributes.find? (fun a => a.attribute_type == t)

/-- The texcoord scan of `native.cc` lines 46-53: walk the attribute list in
increasing index order and keep the first (at most) two attributes whose
type is `TEX_COORD`. -/
def Mesh.texcoord_attrs (m : Mesh) : List PointAttribute :=
  (m.attributes.filter
    (fun a => a.attribute_type == GeometryAttributeType.TEX_COORD)).take 2

/-- The interleaved output vertex (`struct Vertex`, `native.cc` lines 9-15):
field order position (3 floats), normal (3), color (4), texcoord0 (2),
texcoord1 (2). -/
structure Vertex where
  position : List F32
  normal : List F32
  color : List F32
  texcoord0 : List F32
  texcoord1 : List F32
deriving DecidableEq, Repr

/-- The zero-initialised vertex `Vertex v = {};` of line 60: every one of
the 14 floats is `0.0f`. -/
def Vertex.zero : Vertex where
  position := [f32_zero, f32_zero, f32_zero]
  normal := [f32_zero, f32_zero, f32_zero]
  color := [f32_zero, f32_zero, f32_zero, f32_zero]
  texcoord0 := [f32_zero, f32_zero]
  texcoord1 := [f32_zero, f32_zero]

/-- Helper for `memcpyF32`: copies entries `j, j+1, ...` of the source over
the successive entries of the destination, stopping at `n`. -/
def memcpyF32Aux (n : Nat) (src : List F32) : Nat → List F32 → List F32
  | _, [] => []
  | j, d :: rest =>
    (if j < n then src.getD j f32_zero else d) :: memcpyF32Aux n src (j + 1) rest

/-- Model of `std::memcpy(dest, src, sizeof(float) * n)` on float arrays:
the first `n` floats of `dest` are replaced by the first `n` floats of
`src`; the rest of `dest` is untouched.  (Faithful whenever `n` does not
exceed either array's size; beyond that the C++ call overflows.) -/
def memcpyF32 (dest src : List F32) (n : Nat) : List F32 :=
  memcpyF32Aux n src 0 dest

/-- The loop body of `native.cc` lines 59-99 for point index `i`: build one
interleaved output vertex from the resolved attribute handles. -/
def buildVertex (pos_attr : PointAttribute)
    (normal_attr color_attr tc0 tc1 : Option PointAttribute) (i : Nat) :
    Vertex :=
  let v := Vertex.zero
  let position := pos_attr.GetValue (pos_attr.mapped_index i) v.position
  let normal :=
    match normal_attr with
    | some na => na.GetValue (na.mapped_index i) v.normal
    | none => [f32_zero, f32_zero, f32_one]
  let color :=
    match color_attr with
    | some ca =>
      let tmp :=
        ca.GetValue (ca.mapped_index i) [f32_one, f32_one, f32_one, f32_one]
      let c := memcpyF32 v.color tmp ca.num_components
      if ca.num_components < 4 then c.set 3 f32_one else c
    | none => [f32_one, f32_one, f32_one, f32_one]
  let texcoord0 :=
    match tc0 with
    | some ta => ta.GetValue (ta.mapped_index i) [f32_zero, f32_zero]
    | none => [f32_zero, f32_zero]
  let texcoord1 :=
    match tc1 with
    | some ta => ta.GetValue (ta.mapped_index i) [f32_zero, f32_zero]
    | none => [f32_zero, f32_zero]
  { position := position, normal := normal, color := color,
    texcoord0 := texcoord0, texcoord1 := texcoord1 }

/-- The flattened index array of `native.cc` lines 105-110: for each face in
increasing index order, its three corner point indices in winding order. -/
def buildIndices : List Face → List Nat
  | [] => []
  | f :: rest => f.corner 0 :: f.corner 1 :: f.corner 2 :: buildIndices rest

/-- The output structure (`struct DecodedMesh`, `native.cc` lines 17-23).
The two owned raw pointers are modelled by `Option` lists, `none` standing
for a null pointer. -/
structure DecodedMesh where
  vertices : Option (List Vertex)
  vertex_count : Nat
  indices : Option (List Nat)
  index_count : Nat
deriving DecidableEq, Repr

/-- Translation of `decode_draco_mesh_interleaved` (`native.cc` lines
25-113).  The opaque external call `decoder.DecodeMeshFromBuffer(&buffer)`
is embedded by its result: `none` when `!result.ok()`, otherwise the decoded
mesh.  `out` is the caller-supplied output structure on entry; the returned
triple is the boolean return value, the final contents of `*out`, and the
number of `new[]` allocations the call performed. -/
def decode_draco_mesh_interleaved (result : Option Mesh) (out : DecodedMesh) :
    Bool × DecodedMesh × Nat :=
  match result with
  | none => (false, out, 0)
  | some mesh =>
    match mesh.GetNamedAttribute GeometryAttributeType.POSITION with
    | none => (false, out, 0)
    | some pos_attr =>
      let normal_attr := mesh.GetNamedAttribute GeometryAttributeType.NORMAL
      let color_attr := mesh.GetNamedAttribute GeometryAttributeType.COLOR
      let tcs := mesh.texcoord_attrs
      let vertices :=
        (List.range mesh.num_points).map
          (fun i => buildVertex pos_attr normal_attr color_attr
            (tcs.get? 0) (tcs.get? 1) i)
      let indices := buildIndices mesh.faces
      (true,
        { vertices := some vertices
          vertex_count := mesh.num_points
          indices := some indices
          index_count := mesh.num_faces * 3 },
        2)

/-- Translation of `free_decoded_mesh` (`native.cc` lines 115-122).  The
first component of the result records the two pointers on which `delete[]`
was invoked (recall `delete[] nullptr` is a well-defined no-op); the second
is the final contents of the structure: both pointers null, both counts
zero. -/
def free_decoded_mesh (mesh : DecodedMesh) :
    (Option (List Vertex) × Option (List Nat)) × DecodedMesh :=
  ((mesh.vertices, mesh.indices),
    { vertices := none, indices := none, vertex_count := 0, index_count := 0 })

/-- The interleaved layout of one vertex as the 14 consecutive floats the
caller sees: position, normal, color, texcoord0, texcoord1 in field order. -/
def Vertex.layout (v : Vertex) : List F32 :=
  v.position ++ v.normal ++ v.color ++ v.texcoord0 ++ v.texcoord1

/-- Size of a `float` in bytes on the boundary (4-byte IEEE-754 singles). -/
def float_size_bytes : Nat := 4

/-- Byte size of one interleaved vertex, assuming 4-byte floats and no
padding. -/
def Vertex.size_bytes (v : Vertex) : Nat :=
  float_size_bytes * v.layout.length

/-! ### Concrete sample data used by witnesses and counterexamples -/

/-- A 3-component position attribute on the identity point map, with
distinct component bit patterns. -/
def posAttr3 : PointAttribute where
  attribute_type := GeometryAttributeType.POSITION
  num_components := 3
  mapped_index := fun i => i
  value := fun avi j => 100 * avi + j

/-- A 2-component color attribute (for example luminance plus alpha-less
chroma): draco imposes no lower bound on a color attribute's component
count. -/
def colorAttr2 : PointAttribute where
  attribute_type := GeometryAttributeType.COLOR
  num_components := 2
  mapped_index := fun i => i
  value := fun _ j => 7000 + j

/-- A decoded mesh with 4 points, position only, 2 triangles. -/
def sampleMesh : Mesh where
  num_points := 4
  attributes := [posAttr3]
  faces := [⟨0, 1, 2⟩, ⟨0, 2, 3⟩]

/-- A decoded mesh whose color attribute has only 2 components. -/
def cexColorMesh : Mesh where
  num_points := 1
  attributes := [posAttr3, colorAttr2]
  faces := []

/-- A caller-side output structure in its cleared state (null pointers,
zero counts). -/
def emptyDecodedMesh : DecodedMesh where
  vertices := none
  vertex_count := 0
  indices := none
  index_count := 0

/-! ### Helper lemmas -/

/-- On a successfully located position attribute, `decode` returns `true`,
fills the output structure, and performs exactly the two `new` array
allocations. -/
theorem decode_eq_of_pos (m : Mesh) (out : DecodedMesh) (pa : PointAttribute)
    (hpa : m.GetNamedAttribute GeometryAttributeType.POSITION = some pa) :
    decode_draco_mesh_interleaved (some m) out =
      (true,
        { vertices := some ((List.range m.num_points).map
            (fun i => buildVertex pa
              (m.GetNamedAttribute GeometryAttributeType.NORMAL)
              (m.GetNamedAttribute GeometryAttributeType.COLOR)
              (m.texcoord_attrs.get? 0) (m.texcoord_attrs.get? 1) i))
          vertex_count := m.num_points
          indices := some (buildIndices m.faces)
          index_count := m.num_faces * 3 },
        2) := by
  simp [decode_draco_mesh_interleaved, hpa]

/-- The vertex array entry at a valid point index is the vertex built by
the loop body for that index. -/
theorem decode_vertex_get (m : Mesh) (out : DecodedMesh) (pa : PointAttribute)
    (hpa : m.GetNamedAttribute GeometryAttributeType.POSITION = some pa)
    (i : Nat) (hi : i < m.num_points) :
    ((decode_draco_mesh_interleaved (some m) out).2.1.vertices.getD []).get? i =
      some (buildVertex pa
        (m.GetNamedAttribute GeometryAttributeType.NORMAL)
        (m.GetNamedAttribute GeometryAttributeType.COLOR)
        (m.texcoord_attrs.get? 0) (m.texcoord_attrs.get? 1) i) := by
  rw [decode_eq_of_pos m out pa hpa]
  simp [List.get?_map, List.get?_range, hi]

/-- The flattened index array has three entries per face. -/
theorem buildIndices_length (fs : List Face) :
    (buildIndices fs).length = 3 * fs.length := by
  induction fs with
  | nil => simp [buildIndices]
  | cons f rest ih => simp [buildIndices, ih]; ring

/-- Membership in the flattened index array comes from a corner of some
face. -/
theorem mem_buildIndices (fs : List Face) (x : Nat) :
    x ∈ buildIndices fs ↔
      ∃ f ∈ fs, x = f.corner 0 ∨ x = f.corner 1 ∨ x = f.corner 2 := by
  induction fs with
  | nil => simp [buildIndices]
  | cons f rest ih =>
    simp only [buildIndices, List.mem_cons, ih]
    aesop

/-- The flattened index array entry at position `fi * 3 + j` is corner `j`
of face `fi`. -/
theorem buildIndices_get (fs : List Face) (fi j : Nat) (hj : j < 3) :
    (buildIndices fs).get? (fi * 3 + j) =
      (fs.get? fi).map (fun f => f.corner j) := by
  induction fs generalizing fi with
  | nil => simp [buildIndices]
  | cons f rest ih =>
    cases fi with
    | zero =>
      interval_cases j <;> simp [buildIndices]
    | succ n =>
      have harith : (n + 1) * 3 + j = ((n * 3 + j) + 1 + 1) + 1 := by ring
      rw [harith]
      simp only [buildIndices, List.get?_cons_succ]
      exact ih n

/-! ### Claim theorems -/

/-- C1: `decode` returns failure exactly when the external decoder rejects
the stream or the decoded mesh lacks a position attribute; on every failure
the caller-supplied output structure is returned untouched and the
allocation count is zero. -/
theorem decode_failure_contract (result : Option Mesh) (out : DecodedMesh) :
    ((decode_draco_mesh_interleaved result out).1 = false ↔
      result = none ∨ ∃ m, result = some m ∧
        m.GetNamedAttribute GeometryAttributeType.POSITION = none) ∧
    ((decode_draco_mesh_interleaved result out).1 = false →
      (decode_draco_mesh_interleaved result out).2.1 = out ∧
      (decode_draco_mesh_interleaved result out).2.2 = 0) := by
  cases result with
  | none => simp [decode_draco_mesh_interleaved]
  | some m =>
    cases hpa : m.GetNamedAttribute GeometryAttributeType.POSITION with
    | none => simp [decode_draco_mesh_interleaved, hpa]
    | some pa => simp [decode_draco_mesh_interleaved, hpa]

/-- Witness for C1 at the concrete failing input `none` (decoder
rejection) and a concrete output structure. -/
theorem decode_failure_contract_witness :
    (decode_draco_mesh_interleaved none emptyDecodedMesh).2.1 =
      emptyDecodedMesh ∧
    (decode_draco_mesh_interleaved none emptyDecodedMesh).2.2 = 0 :=
  (decode_failure_contract none emptyDecodedMesh).2 (by decide)

/-- C2: on a decoded mesh that has a position attribute, `decode` returns
success with `vertex_count` equal to the mesh's point count and
`index_count` equal to three times its face count. -/
theorem decode_success_counts (m : Mesh) (out : DecodedMesh)
    (h : (m.GetNamedAttribute GeometryAttributeType.POSITION).isSome = true) :
    (decode_draco_mesh_interleaved (some m) out).1 = true ∧
    (decode_draco_mesh_interleaved (some m) out).2.1.vertex_count =
      m.num_points ∧
    (decode_draco_mesh_interleaved (some m) out).2.1.index_count =
      3 * m.num_faces := by
  obtain ⟨pa, hpa⟩ := Option.isSome_iff_exists.mp h
  rw [decode_eq_of_pos m out pa hpa]
  exact ⟨rfl, rfl, Nat.mul_comm _ _⟩

/-- Witness for C2 on a concrete 4-point, 2-face mesh. -/
theorem decode_success_counts_witness :
    (decode_draco_mesh_interleaved (some sampleMesh) emptyDecodedMesh).1 =
      true ∧
    (decode_draco_mesh_interleaved
        (some sampleMesh) emptyDecodedMesh).2.1.vertex_count =
      sampleMesh.num_points ∧
    (decode_draco_mesh_interleaved
        (some sampleMesh) emptyDecodedMesh).2.1.index_count =
      3 * sampleMesh.num_faces :=
  decode_success_counts sampleMesh emptyDecodedMesh (by decide)

/-- C3: when every per-face point reference of the decoded source mesh is
below the mesh's point count, every entry of the produced index array of a
successful decode is below `vertex_count`. -/
theorem decode_indices_bounded (m : Mesh) (out : DecodedMesh)
    (hvalid : ∀ f ∈ m.faces, f.corner 0 < m.num_points ∧
      f.corner 1 < m.num_points ∧ f.corner 2 < m.num_points)
    (hsucc : (decode_draco_mesh_interleaved (some m) out).1 = true) :
    ∀ x ∈ (decode_draco_mesh_interleaved (some m) out).2.1.indices.getD [],
      x < (decode_draco_mesh_interleaved (some m) out).2.1.vertex_count := by
  cases hpa : m.GetNamedAttribute GeometryAttributeType.POSITION with
  | none => simp [decode_draco_mesh_interleaved, hpa] at hsucc
  | some pa =>
    rw [decode_eq_of_pos m out pa hpa]
    intro x hx
    simp only [Option.getD_some] at hx
    obtain ⟨f, hf, hc⟩ := (mem_buildIndices m.faces x).mp hx
    obtain ⟨h0, h1, h2⟩ := hvalid f hf
    rcases hc with rfl | rfl | rfl
    · exact h0
    · exact h1
    · exact h2

/-- Witness for C3 on the concrete 4-point, 2-face mesh, at the concrete
index entry 3. -/
theorem decode_indices_bounded_witness :
    3 ∈ (decode_draco_mesh_interleaved
        (some sampleMesh) emptyDecodedMesh).2.1.indices.getD [] ∧
    3 < (decode_draco_mesh_interleaved
        (some sampleMesh) emptyDecodedMesh).2.1.vertex_count :=
  ⟨by decide,
    decode_indices_bounded sampleMesh emptyDecodedMesh (by decide) (by decide)
      3 (by decide)⟩

/-- C7: on every successful decode the index array holds three entries per
face, `index_count` agrees with its length, and the entry at flat position
`fi * 3 + j` is corner `j` of face `fi`. -/
theorem decode_index_flattening (m : Mesh) (out : DecodedMesh)
    (hsucc : (decode_draco_mesh_interleaved (some m) out).1 = true) :
    ∃ idx, (decode_draco_mesh_interleaved (some m) out).2.1.indices =
        some idx ∧
      idx.length = 3 * m.num_faces ∧
      (decode_draco_mesh_interleaved (some m) out).2.1.index_count =
        idx.length ∧
      ∀ fi, fi < m.num_faces → ∀ j, j < 3 →
        idx.get? (fi * 3 + j) = (m.faces.get? fi).map (fun f => f.corner j) := by
  cases hpa : m.GetNamedAttribute GeometryAttributeType.POSITION with
  | none => simp [decode_draco_mesh_interleaved, hpa] at hsucc
  | some pa =>
    rw [decode_eq_of_pos m out pa hpa]
    refine ⟨buildIndices m.faces, rfl, buildIndices_length m.faces, ?_, ?_⟩
    · rw [buildIndices_length m.faces]
      exact Nat.mul_comm _ _
    · intro fi _ j hj
      exact buildIndices_get m.faces fi j hj

/-- Witness for C7 on the concrete 4-point, 2-face mesh. -/
theorem decode_index_flattening_witness :
    ∃ idx, (decode_draco_mesh_interleaved
        (some sampleMesh) emptyDecodedMesh).2.1.indices = some idx ∧
      idx.length = 3 * sampleMesh.num_faces ∧
      (decode_draco_mesh_interleaved
          (some sampleMesh) emptyDecodedMesh).2.1.index_count = idx.length ∧
      ∀ fi, fi < sampleMesh.num_faces → ∀ j, j < 3 →
        idx.get? (fi * 3 + j) =
          (sampleMesh.faces.get? fi).map (fun f => f.corner j) :=
  decode_index_flattening sampleMesh emptyDecodedMesh (by decide)

/-- C8: `release` invokes `delete` on exactly the two stored array
pointers and leaves the structure with both pointers null and both counts
zero; applied to an already-cleared structure it deletes only null
pointers (a no-op) and returns the structure unchanged. -/
theorem free_decoded_mesh_contract (mesh : DecodedMesh) :
    ((free_decoded_mesh mesh).1 = (mesh.vertices, mesh.indices) ∧
      (free_decoded_mesh mesh).2.vertices = none ∧
      (free_decoded_mesh mesh).2.indices = none ∧
      (free_decoded_mesh mesh).2.vertex_count = 0 ∧
      (free_decoded_mesh mesh).2.index_count = 0) ∧
    (mesh.vertices = none → mesh.indices = none →
      mesh.vertex_count = 0 → mesh.index_count = 0 →
      (free_decoded_mesh mesh).2 = mesh ∧
      (free_decoded_mesh mesh).1 = (none, none)) := by
  refine ⟨⟨rfl, rfl, rfl, rfl, rfl⟩, ?_⟩
  intro h1 h2 h3 h4
  cases mesh
  simp_all [free_decoded_mesh]

/-- Witness for C8 at the concrete cleared structure. -/
theorem free_decoded_mesh_contract_witness :
    (free_decoded_mesh emptyDecodedMesh).2 = emptyDecodedMesh ∧
    (free_decoded_mesh emptyDecodedMesh).1 = (none, none) :=
  (free_decoded_mesh_contract emptyDecodedMesh).2 rfl rfl rfl rfl

/-- C5: on every successful decode, a vertex's normal is the verbatim copy
of the (3-component) normal attribute value at the point's mapped index
when a normal attribute is present, and (0, 0, 1) otherwise. -/
theorem decode_normal_semantics (m : Mesh) (out : DecodedMesh)
    (pa : PointAttribute)
    (hpa : m.GetNamedAttribute GeometryAttributeType.POSITION = some pa)
    (hn : (m.GetNamedAttribute GeometryAttributeType.NORMAL).all
      (fun na => na.num_components == 3) = true)
    (i : Nat) (hi : i < m.num_points) :
    ∃ v, ((decode_draco_mesh_interleaved
          (some m) out).2.1.vertices.getD []).get? i = some v ∧
      v.normal =
        match m.GetNamedAttribute GeometryAttributeType.NORMAL with
        | some na => [na.value (na.mapped_index i) 0,
            na.value (na.mapped_index i) 1, na.value (na.mapped_index i) 2]
        | none => [f32_zero, f32_zero, f32_one] := by
  refine ⟨_, decode_vertex_get m out pa hpa i hi, ?_⟩
  cases hna : m.GetNamedAttribute GeometryAttributeType.NORMAL with
  | none => simp [buildVertex, hna]
  | some na =>
    rw [hna] at hn
    simp only [Option.all_some, beq_iff_eq] at hn
    simp [buildVertex, hna, PointAttribute.GetValue,
      PointAttribute.GetValueAux, Vertex.zero, hn]

/-- Witness for C5 on a concrete mesh that has no normal attribute. -/
theorem decode_normal_semantics_witness :
    ∃ v, ((decode_draco_mesh_interleaved
          (some sampleMesh) emptyDecodedMesh).2.1.vertices.getD []).get? 0 =
        some v ∧
      v.normal =
        match sampleMesh.GetNamedAttribute GeometryAttributeType.NORMAL with
        | some na => [na.value (na.mapped_index 0) 0,
            na.value (na.mapped_index 0) 1, na.value (na.mapped_index 0) 2]
        | none => [f32_zero, f32_zero, f32_one] :=
  decode_normal_semantics sampleMesh emptyDecodedMesh posAttr3 rfl
    (by decide) 0 (by decide)

/-- C4 counterexample: on a decoded mesh whose color attribute has 2
components, decode succeeds yet color component 2 of the output vertex — a
missing trailing color component — holds 0.0, not the 1.0 the claim
requires. -/
theorem decode_color_claim_counterexample :
    (decode_draco_mesh_interleaved (some cexColorMesh) emptyDecodedMesh).1 =
      true ∧
    (cexColorMesh.GetNamedAttribute GeometryAttributeType.COLOR).map
      PointAttribute.num_components = some 2 ∧
    (((decode_draco_mesh_interleaved (some cexColorMesh)
          emptyDecodedMesh).2.1.vertices.getD []).getD 0
        Vertex.zero).color.get? 2 = some f32_zero ∧
    f32_zero ≠ f32_one := by decide

/-- C4 (amended): on every successful decode, if the source mesh has a
color attribute with `C ≤ 4` components then the first `C` entries of a
vertex's color are copied from the attribute value at the point's mapped
index, the alpha entry (index 3) is forced to 1.0 whenever `C < 4`, and
entries with index in `[C, 3)` remain 0.0; with no color attribute the
color is (1, 1, 1, 1). -/
theorem decode_color_amended (m : Mesh) (out : DecodedMesh)
    (pa : PointAttribute)
    (hpa : m.GetNamedAttribute GeometryAttributeType.POSITION = some pa)
    (hc4 : (m.GetNamedAttribute GeometryAttributeType.COLOR).all
      (fun ca => decide (ca.num_components ≤ 4)) = true)
    (i : Nat) (hi : i < m.num_points) :
    ∃ v, ((decode_draco_mesh_interleaved
          (some m) out).2.1.vertices.getD []).get? i = some v ∧
      v.color =
        match m.GetNamedAttribute GeometryAttributeType.COLOR with
        | some ca =>
            [if 0 < ca.num_components then ca.value (ca.mapped_index i) 0
              else f32_zero,
             if 1 < ca.num_components then ca.value (ca.mapped_index i) 1
              else f32_zero,
             if 2 < ca.num_components then ca.value (ca.mapped_index i) 2
              else f32_zero,
             if 3 < ca.num_components then ca.value (ca.mapped_index i) 3
              else f32_one]
        | none => [f32_one, f32_one, f32_one, f32_one] := by
  refine ⟨_, decode_vertex_get m out pa hpa i hi, ?_⟩
  cases hca : m.GetNamedAttribute GeometryAttributeType.COLOR with
  | none => simp [buildVertex, hca]
  | some ca =>
    rw [hca] at hc4
    simp only [Option.all_some, decide_eq_true_eq] at hc4
    have hcases : ca.num_components = 0 ∨ ca.num_components = 1 ∨
        ca.num_components = 2 ∨ ca.num_components = 3 ∨
        ca.num_components = 4 := by omega
    rcases hcases with h | h | h | h | h <;>
      simp [buildVertex, hca, PointAttribute.GetValue,
        PointAttribute.GetValueAux, memcpyF32, memcpyF32Aux, List.getD,
        Vertex.zero, h]

/-- Witness for C4 (amended) on the concrete mesh with a 2-component color
attribute. -/
theorem decode_color_amended_witness :
    ∃ v, ((decode_draco_mesh_interleaved
          (some cexColorMesh) emptyDecodedMesh).2.1.vertices.getD []).get? 0 =
        some v ∧
      v.color =
        match cexColorMesh.GetNamedAttribute GeometryAttributeType.COLOR with
        | some ca =>
            [if 0 < ca.num_components then ca.value (ca.mapped_index 0) 0
              else f32_zero,
             if 1 < ca.num_components then ca.value (ca.mapped_index 0) 1
              else f32_zero,
             if 2 < ca.num_components then ca.value (ca.mapped_index 0) 2
              else f32_zero,
             if 3 < ca.num_components then ca.value (ca.mapped_index 0) 3
              else f32_one]
        | none => [f32_one, f32_one, f32_one, f32_one] :=
  decode_color_amended cexColorMesh emptyDecodedMesh posAttr3 rfl
    (by decide) 0 (by decide)

/-- C9: on every successful decode, when the color attribute has `C < 3`
components only its `C` component values are copied into the head of the
vertex's color, the alpha entry (index 3) is set to 1.0, and the entries
with index in `[C, 3)` keep the 0.0 of the zero-initialised vertex rather
than 1.0. -/
theorem decode_color_low_components (m : Mesh) (out : DecodedMesh)
    (pa ca : PointAttribute)
    (hpa : m.GetNamedAttribute GeometryAttributeType.POSITION = some pa)
    (hca : m.GetNamedAttribute GeometryAttributeType.COLOR = some ca)
    (hC : ca.num_components < 3) (i : Nat) (hi : i < m.num_points) :
    ∃ v, ((decode_draco_mesh_interleaved
          (some m) out).2.1.vertices.getD []).get? i = some v ∧
      (∀ j, j < ca.num_components →
        v.color.get? j = some (ca.value (ca.mapped_index i) j)) ∧
      v.color.get? 3 = some f32_one ∧
      (∀ j, ca.num_components ≤ j → j < 3 →
        v.color.get? j = some f32_zero) ∧
      f32_zero ≠ f32_one := by
  refine ⟨_, decode_vertex_get m out pa hpa i hi, ?_, ?_, ?_, by decide⟩ <;>
  · have hcases : ca.num_components = 0 ∨ ca.num_components = 1 ∨
        ca.num_components = 2 := by omega
    first
    | (intro j hj1 hj2
       have hjc : j = 0 ∨ j = 1 ∨ j = 2 := by omega
       rcases hcases with h | h | h <;> rcases hjc with rfl | rfl | rfl <;>
         simp_all [buildVertex, hca, PointAttribute.GetValue,
           PointAttribute.GetValueAux, memcpyF32, memcpyF32Aux, List.getD,
           Vertex.zero])
    | (intro j hj
       have hjc : j = 0 ∨ j = 1 := by omega
       rcases hcases with h | h | h <;> rcases hjc with rfl | rfl <;>
         simp_all [buildVertex, hca, PointAttribute.GetValue,
           PointAttribute.GetValueAux, memcpyF32, memcpyF32Aux, List.getD,
           Vertex.zero])
    | (rcases hcases with h | h | h <;>
         simp [buildVertex, hca, PointAttribute.GetValue,
           PointAttribute.GetValueAux, memcpyF32, memcpyF32Aux, List.getD,
           Vertex.zero, h])

/-- Witness for C9 on the concrete mesh with a 2-component color
attribute. -/
theorem decode_color_low_components_witness :
    ∃ v, ((decode_draco_mesh_interleaved
          (some cexColorMesh) emptyDecodedMesh).2.1.vertices.getD []).get? 0 =
        some v ∧
      (∀ j, j < colorAttr2.num_components →
        v.color.get? j = some (colorAttr2.value (colorAttr2.mapped_index 0) j)) ∧
      v.color.get? 3 = some f32_one ∧
      (∀ j, colorAttr2.num_components ≤ j → j < 3 →
        v.color.get? j = some f32_zero) ∧
      f32_zero ≠ f32_one :=
  decode_color_low_components cexColorMesh emptyDecodedMesh posAttr3
    colorAttr2 rfl rfl (by decide) 0 (by decide)

/-- A first 2-component texture-coordinate attribute. -/
def texAttrA : PointAttribute where
  attribute_type := GeometryAttributeType.TEX_COORD
  num_components := 2
  mapped_index := fun i => i
  value := fun avi j => 500 + 10 * avi + j

/-- A second 2-component texture-coordinate attribute. -/
def texAttrB : PointAttribute where
  attribute_type := GeometryAttributeType.TEX_COORD
  num_components := 2
  mapped_index := fun i => i
  value := fun avi j => 900 + 10 * avi + j

/-- A decoded mesh carrying two texture-coordinate attributes. -/
def texMesh : Mesh where
  num_points := 2
  attributes := [posAttr3, texAttrA, texAttrB]
  faces := []

/-- C6: on every successful decode the texture-coordinate attributes used
are the first two attributes of role `TEX_COORD` in attribute-list order;
`texcoord0` comes from the first and `texcoord1` from the second, each read
(2 components) at the point's mapped index, and each slot is (0, 0) when
the corresponding attribute does not exist. -/
theorem decode_texcoord_semantics (m : Mesh) (out : DecodedMesh)
    (pa : PointAttribute)
    (hpa : m.GetNamedAttribute GeometryAttributeType.POSITION = some pa)
    (ht : (m.attributes.filter
      (fun a => a.attribute_type == GeometryAttributeType.TEX_COORD)).all
      (fun ta => ta.num_components == 2) = true)
    (i : Nat) (hi : i < m.num_points) :
    ∃ v, ((decode_draco_mesh_interleaved
          (some m) out).2.1.vertices.getD []).get? i = some v ∧
      v.texcoord0 =
        (match (m.attributes.filter
            (fun a =>
              a.attribute_type == GeometryAttributeType.TEX_COORD)).get? 0 with
         | some ta => [ta.value (ta.mapped_index i) 0,
             ta.value (ta.mapped_index i) 1]
         | none => [f32_zero, f32_zero]) ∧
      v.texcoord1 =
        (match (m.attributes.filter
            (fun a =>
              a.attribute_type == GeometryAttributeType.TEX_COORD)).get? 1 with
         | some ta => [ta.value (ta.mapped_index i) 0,
             ta.value (ta.mapped_index i) 1]
         | none => [f32_zero, f32_zero]) := by
  refine ⟨_, decode_vertex_get m out pa hpa i hi, ?_, ?_⟩
  · have h0 : m.texcoord_attrs.get? 0 =
        (m.attributes.filter
          (fun a => a.attribute_type == GeometryAttributeType.TEX_COORD)).get? 0 :=
      List.get?_take (by omega)
    rw [h0]
    cases hfil : (m.attributes.filter
        (fun a => a.attribute_type == GeometryAttributeType.TEX_COORD)).get? 0 with
    | none => simp [buildVertex]
    | some ta =>
      have hmem : ta ∈ m.attributes.filter
          (fun a => a.attribute_type == GeometryAttributeType.TEX_COORD) :=
        List.get?_mem hfil
      have h2 : ta.num_components = 2 := by
        have := List.all_eq_true.mp ht ta hmem
        simpa using this
      simp [buildVertex, PointAttribute.GetValue, PointAttribute.GetValueAux,
        h2]
  · have h1 : m.texcoord_attrs.get? 1 =
        (m.attributes.filter
          (fun a => a.attribute_type == GeometryAttributeType.TEX_COORD)).get? 1 :=
      List.get?_take (by omega)
    rw [h1]
    cases hfil : (m.attributes.filter
        (fun a => a.attribute_type == GeometryAttributeType.TEX_COORD)).get? 1 with
    | none => simp [buildVertex]
    | some ta =>
      have hmem : ta ∈ m.attributes.filter
          (fun a => a.attribute_type == GeometryAttributeType.TEX_COORD) :=
        List.get?_mem hfil
      have h2 : ta.num_components = 2 := by
        have := List.all_eq_true.mp ht ta hmem
        simpa using this
      simp [buildVertex, PointAttribute.GetValue, PointAttribute.GetValueAux,
        h2]

/-- Witness for C6 on a concrete mesh with two texture-coordinate
attributes. -/
theorem decode_texcoord_semantics_witness :
    ∃ v, ((decode_draco_mesh_interleaved
          (some texMesh) emptyDecodedMesh).2.1.vertices.getD []).get? 1 =
        some v ∧
      v.texcoord0 =
        (match (texMesh.attributes.filter
            (fun a =>
              a.attribute_type == GeometryAttributeType.TEX_COORD)).get? 0 with
         | some ta => [ta.value (ta.mapped_index 1) 0,
             ta.value (ta.mapped_index 1) 1]
         | none => [f32_zero, f32_zero]) ∧
      v.texcoord1 =
        (match (texMesh.attributes.filter
            (fun a =>
              a.attribute_type == GeometryAttributeType.TEX_COORD)).get? 1 with
         | some ta => [ta.value (ta.mapped_index 1) 0,
             ta.value (ta.mapped_index 1) 1]
         | none => [f32_zero, f32_zero]) :=
  decode_texcoord_semantics texMesh emptyDecodedMesh posAttr3 rfl
    (by decide) 1 (by decide)

/-- Writing attribute components over a buffer preserves its length. -/
theorem GetValueAux_length (attr : PointAttribute) (avi : Nat) (j : Nat)
    (l : List F32) : (attr.GetValueAux avi j l).length = l.length := by
  induction l generalizing j with
  | nil => rfl
  | cons d rest ih => simp [PointAttribute.GetValueAux, ih]

/-- Copying into a buffer preserves its length. -/
theorem memcpyF32Aux_length (n : Nat) (src : List F32) (j : Nat)
    (l : List F32) : (memcpyF32Aux n src j l).length = l.length := by
  induction l generalizing j with
  | nil => rfl
  | cons d rest ih => simp [memcpyF32Aux, ih]

/-- Every vertex the loop body builds has fields of the fixed sizes 3, 3,
4, 2, 2. -/
theorem buildVertex_field_lengths (pa : PointAttribute)
    (na ca t0 t1 : Option PointAttribute) (i : Nat) :
    (buildVertex pa na ca t0 t1 i).position.length = 3 ∧
    (buildVertex pa na ca t0 t1 i).normal.length = 3 ∧
    (buildVertex pa na ca t0 t1 i).color.length = 4 ∧
    (buildVertex pa na ca t0 t1 i).texcoord0.length = 2 ∧
    (buildVertex pa na ca t0 t1 i).texcoord1.length = 2 := by
  rcases na with _ | na <;> rcases ca with _ | ca <;>
    rcases t0 with _ | t0 <;> rcases t1 with _ | t1 <;>
      refine ⟨?_, ?_, ?_, ?_, ?_⟩ <;>
        simp [buildVertex, Vertex.zero, PointAttribute.GetValue,
          GetValueAux_length, memcpyF32, memcpyF32Aux_length,
          apply_ite List.length, List.length_set]

/-- A list of length 2 is a literal pair. -/
theorem exists_list_two {α : Type} {l : List α} (h : l.length = 2) :
    ∃ a b, l = [a, b] := by
  rcases l with _ | ⟨a, _ | ⟨b, _ | ⟨c, t⟩⟩⟩ <;> simp_all

/-- A list of length 3 is a literal triple. -/
theorem exists_list_three {α : Type} {l : List α} (h : l.length = 3) :
    ∃ a b c, l = [a, b, c] := by
  rcases l with _ | ⟨a, _ | ⟨b, _ | ⟨c, _ | ⟨d, t⟩⟩⟩⟩ <;> simp_all

/-- A list of length 4 is a literal quadruple. -/
theorem exists_list_four {α : Type} {l : List α} (h : l.length = 4) :
    ∃ a b c d, l = [a, b, c, d] := by
  rcases l with _ | ⟨a, _ | ⟨b, _ | ⟨c, _ | ⟨d, _ | ⟨e, t⟩⟩⟩⟩⟩ <;> simp_all

/-- C10: on every successful decode each output vertex flattens to exactly
14 floats (56 bytes at 4 bytes per float, no padding) in field order
position, normal, color, texcoord0, texcoord1 at float offsets 0, 3, 6, 10
and 12; and the index array is a flat triangle list: three entries per
face, the entries at flat positions `t*3`, `t*3+1`, `t*3+2` being the
corners of face `t` in winding order. -/
theorem vertex_layout_contract (m : Mesh) (out : DecodedMesh)
    (hsucc : (decode_draco_mesh_interleaved (some m) out).1 = true) :
    (∀ v ∈ (decode_draco_mesh_interleaved (some m) out).2.1.vertices.getD [],
      v.layout.length = 14 ∧ v.size_bytes = 56 ∧
      (∀ j, j < 3 → v.layout.get? j = v.position.get? j) ∧
      (∀ j, j < 3 → v.layout.get? (3 + j) = v.normal.get? j) ∧
      (∀ j, j < 4 → v.layout.get? (6 + j) = v.color.get? j) ∧
      (∀ j, j < 2 → v.layout.get? (10 + j) = v.texcoord0.get? j) ∧
      (∀ j, j < 2 → v.layout.get? (12 + j) = v.texcoord1.get? j)) ∧
    (∃ idx, (decode_draco_mesh_interleaved (some m) out).2.1.indices =
        some idx ∧
      idx.length = 3 * m.num_faces ∧
      ∀ t, t < m.num_faces →
        idx.get? (t * 3) = (m.faces.get? t).map (fun f => f.corner 0) ∧
        idx.get? (t * 3 + 1) = (m.faces.get? t).map (fun f => f.corner 1) ∧
        idx.get? (t * 3 + 2) = (m.faces.get? t).map (fun f => f.corner 2)) := by
  cases hpa : m.GetNamedAttribute GeometryAttributeType.POSITION with
  | none => simp [decode_draco_mesh_interleaved, hpa] at hsucc
  | some pa =>
    rw [decode_eq_of_pos m out pa hpa]
    constructor
    · intro v hv
      simp only [Option.getD_some, List.mem_map] at hv
      obtain ⟨i, _, rfl⟩ := hv
      obtain ⟨hp, hn, hc, h0, h1⟩ := buildVertex_field_lengths pa
        (m.GetNamedAttribute GeometryAttributeType.NORMAL)
        (m.GetNamedAttribute GeometryAttributeType.COLOR)
        (m.texcoord_attrs.get? 0) (m.texcoord_attrs.get? 1) i
      obtain ⟨p0, p1, p2, hpl⟩ := exists_list_three hp
      obtain ⟨n0, n1, n2, hnl⟩ := exists_list_three hn
      obtain ⟨c0, c1, c2, c3, hcl⟩ := exists_list_four hc
      obtain ⟨u0, u1, hul⟩ := exists_list_two h0
      obtain ⟨w0, w1, hwl⟩ := exists_list_two h1
      simp only [List.get?_eq_getElem?] at hpl hnl hcl hul hwl
      refine ⟨?_, ?_, ?_, ?_, ?_, ?_, ?_⟩
      · simp [Vertex.layout, hpl, hnl, hcl, hul, hwl]
      · simp [Vertex.size_bytes, Vertex.layout, float_size_bytes, hpl, hnl,
          hcl, hul, hwl]
      · intro j hj
        interval_cases j <;> simp [Vertex.layout, hpl, hnl, hcl, hul, hwl]
      · intro j hj
        interval_cases j <;> simp [Vertex.layout, hpl, hnl, hcl, hul, hwl]
      · intro j hj
        interval_cases j <;> simp [Vertex.layout, hpl, hnl, hcl, hul, hwl]
      · intro j hj
        interval_cases j <;> simp [Vertex.layout, hpl, hnl, hcl, hul, hwl]
      · intro j hj
        interval_cases j <;> simp [Vertex.layout, hpl, hnl, hcl, hul, hwl]
    · refine ⟨buildIndices m.faces, rfl, buildIndices_length m.faces, ?_⟩
      intro t ht
      refine ⟨?_, ?_, ?_⟩
      · have := buildIndices_get m.faces t 0 (by omega)
        simpa using this
      · exact buildIndices_get m.faces t 1 (by omega)
      · exact buildIndices_get m.faces t 2 (by omega)

/-- Witness for C10 on the concrete 4-point, 2-face mesh. -/
theorem vertex_layout_contract_witness :
    (∀ v ∈ (decode_draco_mesh_interleaved
        (some sampleMesh) emptyDecodedMesh).2.1.vertices.getD [],
      v.layout.length = 14 ∧ v.size_bytes = 56 ∧
      (∀ j, j < 3 → v.layout.get? j = v.position.get? j) ∧
      (∀ j, j < 3 → v.layout.get? (3 + j) = v.normal.get? j) ∧
      (∀ j, j < 4 → v.layout.get? (6 + j) = v.color.get? j) ∧
      (∀ j, j < 2 → v.layout.get? (10 + j) = v.texcoord0.get? j) ∧
      (∀ j, j < 2 → v.layout.get? (12 + j) = v.texcoord1.get? j)) ∧
    (∃ idx, (decode_draco_mesh_interleaved
        (some sampleMesh) emptyDecodedMesh).2.1.indices = some idx ∧
      idx.length = 3 * sampleMesh.num_faces ∧
      ∀ t, t < sampleMesh.num_faces →
        idx.get? (t * 3) =
          (sampleMesh.faces.get? t).map (fun f => f.corner 0) ∧
        idx.get? (t * 3 + 1) =
          (sampleMesh.faces.get? t).map (fun f => f.corner 1) ∧
        idx.get? (t * 3 + 2) =
          (sampleMesh.faces.get? t).map (fun f => f.corner 2)) :=
  vertex_layout_contract sampleMesh emptyDecodedMesh (by decide)

end ABetterWorld
